import Mathlib

/-!
Verification of the musimath `Note` class (src/musimath/note/Note.py and
src/musimath/constants.py) against its natural-language specification.

The Python code works in floating point; following the specification, which
states all numeric identities "modulo floating-point rounding", the embedding
models the arithmetic over the real numbers: `np.sin` is `Real.sin`,
`np.log2` is `Real.logb 2`, `np.sign` is `Real.sign`, `np.floor` is the
integer floor (cast back to ℝ, as `np.floor` returns a float), float
exponentiation is `Real.rpow`, and `np.linspace` is modelled pointwise by
`start + (stop - start) * i / (n - 1)`, which is exact over ℝ and agrees with
numpy at both endpoints.
-/

open Real

/-- `speed_of_sound = 343` from src/musimath/constants.py (m/s). -/
def speed_of_sound : ℝ := 343

/-- `standard_pitch = 440` from src/musimath/constants.py (Hz). -/
def standard_pitch : ℝ := 440

/-- `standard_octave = 4` from src/musimath/constants.py. -/
def standard_octave : ℝ := 4

/-- `n_tets = 12` from src/musimath/constants.py. -/
def n_tets : ℝ := 12

/-- A `Note` is determined by the frequency handed to `Note.__init__`; every
other attribute stored by the constructor is a pure function of it, so the
derived attributes are modelled as functions of the frequency below. -/
structure Note where
  frequency : ℝ

namespace Note

/-- The octave stored by `Note.__init__`:
`standard_octave + np.sign(frequency - standard_pitch)
  * np.floor(np.abs(np.log2(frequency / standard_pitch)))`.
`np.floor` returns a float, so the value is kept in ℝ. -/
noncomputable def octave (n : Note) : ℝ :=
  standard_octave +
    Real.sign (n.frequency - standard_pitch) *
      (⌊|Real.logb 2 (n.frequency / standard_pitch)|⌋ : ℤ)

/-- The base frequency stored by `Note.__init__`:
`frequency * 2 ** (-octave)` (float power, hence `Real.rpow`). -/
noncomputable def base_frequency (n : Note) : ℝ :=
  n.frequency * (2 : ℝ) ^ (-n.octave)

/-- The wavelength stored by `Note.__init__`: `speed_of_sound / frequency`. -/
noncomputable def wavelength (n : Note) : ℝ :=
  speed_of_sound / n.frequency

/-- `Note.__call__`: the body is `np.sin(2 * np.pi * self.frequency)`;
the parameter `t` does not occur in it. -/
noncomputable def call (n : Note) (t : ℝ) : ℝ :=
  Real.sin (2 * π * n.frequency)

/-- The effective `__le__` of the class: `Note.py` defines `__le__` twice and
the second definition (documented as "greater than or equal to comparison",
body `self.frequency >= other.frequency`) overwrites the first in the class
body, so `a <= b` evaluates this predicate. -/
def le (a b : Note) : Prop :=
  a.frequency ≥ b.frequency

/-- `Note.__eq__`: `self.frequency == other.frequency`. -/
def eq (a b : Note) : Prop :=
  a.frequency = b.frequency

/-- `Note.__lt__`: `self.frequency < other.frequency`. -/
def lt (a b : Note) : Prop :=
  a.frequency < b.frequency

/-- `Note.__gt__`: `self.frequency > other.frequency`. -/
def gt (a b : Note) : Prop :=
  a.frequency > b.frequency

/-- `Note.half_step`: `Note(self.frequency * 2 ** (n_steps / n_tets))`,
where `n_steps / n_tets` is Python float division. -/
noncomputable def half_step (n : Note) (n_steps : ℤ) : Note :=
  ⟨n.frequency * (2 : ℝ) ^ ((n_steps : ℝ) / n_tets)⟩

end Note

/-- `np.linspace(a, b, n)`: `n` evenly spaced samples from `a` to `b`,
inclusive of both endpoints; sample `i` is `a + (b - a) * i / (n - 1)`
(for `n = 1` numpy returns `[a]`, which the formula also gives since real
division by zero is zero). -/
noncomputable def linspace (a b : ℝ) (n : ℕ) : List ℝ :=
  (List.range n).map (fun i : ℕ => a + (b - a) * (i : ℝ) / ((n : ℝ) - 1))

namespace Note

/-- `Note.plot`, modelled up to the plotting collaborator: the `Except` value
is the list of `(x, y)` pairs handed to `ax.plot` (`xx = np.linspace(...)`,
`yy = self(xx)` elementwise), or the assertion failure raised, before any
sampling or drawing, when an explicit `x_range` has `x_range[0] >= x_range[1]`.
When `x_range` is `None` it defaults to `(0, self.wavelength)`. -/
noncomputable def plot (n : Note) (x_range : Option (ℝ × ℝ)) (n_points : ℕ) :
    Except String (List (ℝ × ℝ)) :=
  match x_range with
  | some r =>
    if r.1 < r.2 then
      Except.ok ((linspace r.1 r.2 n_points).map (fun x => (x, n.call x)))
    else
      Except.error "Invalid space interval!"
  | none =>
    Except.ok ((linspace 0 n.wavelength n_points).map (fun x => (x, n.call x)))

end Note

/-- The octave formula as the specification states it (§3):
`octave = 4 + sign(frequency/440 - 1) * floor(|log2(frequency/440)|)`. -/
noncomputable def spec_octave (f : ℝ) : ℝ :=
  4 + Real.sign (f / 440 - 1) * (⌊|Real.logb 2 (f / 440)|⌋ : ℤ)

/-- C1: `Note.__call__` returns `sin(2π · frequency)` for every `t`, and the
result does not depend on `t`: any two calls on the same note agree. -/
theorem call_const (n : Note) (t : ℝ) :
    n.call t = Real.sin (2 * π * n.frequency) ∧ ∀ s : ℝ, n.call t = n.call s :=
  ⟨rfl, fun _ => rfl⟩

/-- C2: the effective less-or-equal comparison of `Note` implements
greater-or-equal: `a <= b` holds iff `b.frequency ≤ a.frequency`, and it is
not a less-or-equal relation on frequencies. -/
theorem le_implements_ge :
    (∀ a b : Note, a.le b ↔ b.frequency ≤ a.frequency) ∧
    ¬ (∀ a b : Note, a.le b ↔ a.frequency ≤ b.frequency) := by
  refine ⟨fun a b => Iff.rfl, fun h => ?_⟩
  have h12 : Note.le ⟨1⟩ ⟨2⟩ := (h ⟨1⟩ ⟨2⟩).mpr (by norm_num)
  have : (1 : ℝ) ≥ 2 := h12
  norm_num at this

/-- C4: for every note, `base_frequency * 2^octave = frequency`; notes are
immutable values in the embedding, so the identity holds throughout a note's
lifetime. -/
theorem base_frequency_identity (n : Note) :
    n.base_frequency * (2 : ℝ) ^ n.octave = n.frequency := by
  unfold Note.base_frequency
  rw [mul_assoc, ← Real.rpow_add (by norm_num : (0 : ℝ) < 2), neg_add_cancel,
    Real.rpow_zero, mul_one]

/-- C8: on notes, exactly one of `a < b`, `a == b`, `a > b` holds, each
relation comparing the frequencies (equality is exact). -/
theorem note_trichotomy (a b : Note) :
    (a.lt b ∧ ¬ a.eq b ∧ ¬ a.gt b) ∨
    (¬ a.lt b ∧ a.eq b ∧ ¬ a.gt b) ∨
    (¬ a.lt b ∧ ¬ a.eq b ∧ a.gt b) := by
  unfold Note.lt Note.eq Note.gt
  rcases lt_trichotomy a.frequency b.frequency with h | h | h
  · exact Or.inl ⟨h, ne_of_lt h, lt_asymm h⟩
  · exact Or.inr (Or.inl ⟨by simp [h], h, by simp [h]⟩)
  · exact Or.inr (Or.inr ⟨lt_asymm h, ne_of_gt h, h⟩)

/-- C9: for every positive frequency `f`, the constructed note satisfies
`wavelength * f = 343` (the speed of sound). -/
theorem wavelength_identity (f : ℝ) (hf : 0 < f) :
    (Note.mk f).wavelength * f = 343 := by
  unfold Note.wavelength
  show speed_of_sound / f * f = 343
  rw [div_mul_cancel₀ _ (ne_of_gt hf)]
  norm_num [speed_of_sound]

/-- Witness for C9 at `f = 440`. -/
theorem wavelength_identity_witness :
    (0 : ℝ) < 440 ∧ (Note.mk 440).wavelength * 440 = 343 :=
  ⟨by norm_num, wavelength_identity 440 (by norm_num)⟩

/-- `Real.sign (f / 440 - 1)` and `Real.sign (f - 440)` agree, since
`f / 440 - 1 = (f - 440) / 440` and `440 > 0`. -/
lemma sign_div_shift (f : ℝ) : Real.sign (f / 440 - 1) = Real.sign (f - 440) := by
  rcases lt_trichotomy f 440 with h | h | h
  · have hd : f / 440 < 1 := (div_lt_one (by norm_num : (0 : ℝ) < 440)).mpr h
    rw [Real.sign_of_neg (by linarith), Real.sign_of_neg (by linarith)]
  · subst h
    norm_num
  · have hd : 1 < f / 440 := (one_lt_div (by norm_num : (0 : ℝ) < 440)).mpr h
    rw [Real.sign_of_pos (by linarith), Real.sign_of_pos (by linarith)]

/-- C3: for every positive frequency `f`, the octave stored by the
constructor equals the specification formula
`4 + sign(f/440 - 1) * floor(|log2(f/440)|)`; in particular
`Note(440).octave = 4`, `Note(880).octave = 5` and `Note(220).octave = 3`. -/
theorem octave_matches_spec (f : ℝ) (hf : 0 < f) :
    Note.octave ⟨f⟩ = spec_octave f ∧
    Note.octave ⟨440⟩ = 4 ∧ Note.octave ⟨880⟩ = 5 ∧ Note.octave ⟨220⟩ = 3 := by
  refine ⟨?_, ?_, ?_, ?_⟩
  · show standard_octave + Real.sign (f - standard_pitch) *
        (⌊|Real.logb 2 (f / standard_pitch)|⌋ : ℤ) = spec_octave f
    unfold standard_octave standard_pitch spec_octave
    rw [sign_div_shift]
  · show standard_octave + Real.sign ((440 : ℝ) - standard_pitch) *
        (⌊|Real.logb 2 ((440 : ℝ) / standard_pitch)|⌋ : ℤ) = 4
    unfold standard_octave standard_pitch
    norm_num [Real.sign_zero]
  · show standard_octave + Real.sign ((880 : ℝ) - standard_pitch) *
        (⌊|Real.logb 2 ((880 : ℝ) / standard_pitch)|⌋ : ℤ) = 5
    unfold standard_octave standard_pitch
    have h1 : Real.sign ((880 : ℝ) - 440) = 1 := Real.sign_of_pos (by norm_num)
    have h2 : Real.logb 2 ((880 : ℝ) / 440) = 1 := by
      have hq : (880 : ℝ) / 440 = 2 := by norm_num
      rw [hq]
      exact Real.logb_self_eq_one (by norm_num)
    rw [h1, h2]
    norm_num
  · show standard_octave + Real.sign ((220 : ℝ) - standard_pitch) *
        (⌊|Real.logb 2 ((220 : ℝ) / standard_pitch)|⌋ : ℤ) = 3
    unfold standard_octave standard_pitch
    have h1 : Real.sign ((220 : ℝ) - 440) = -1 := Real.sign_of_neg (by norm_num)
    have h2 : Real.logb 2 ((220 : ℝ) / 440) = -1 := by
      have hq : (220 : ℝ) / 440 = 2⁻¹ := by norm_num
      rw [hq, Real.logb_inv, Real.logb_self_eq_one (by norm_num)]
    rw [h1, h2]
    norm_num

/-- Witness for C3 at `f = 880`. -/
theorem octave_matches_spec_witness :
    (0 : ℝ) < 880 ∧
    (Note.octave ⟨880⟩ = spec_octave 880 ∧
     Note.octave ⟨440⟩ = 4 ∧ Note.octave ⟨880⟩ = 5 ∧ Note.octave ⟨220⟩ = 3) :=
  ⟨by norm_num, octave_matches_spec 880 (by norm_num)⟩

/-- C5: `half_step` builds a new note with frequency
`frequency * 2^(n_steps/12)`; in particular from 440 Hz, 12 steps give
880 Hz, 0 steps give 440 Hz and -12 steps give 220 Hz. -/
theorem half_step_spec (n : Note) (k : ℤ) :
    (n.half_step k).frequency = n.frequency * (2 : ℝ) ^ ((k : ℝ) / 12) ∧
    ((Note.mk 440).half_step 12).frequency = 880 ∧
    ((Note.mk 440).half_step 0).frequency = 440 ∧
    ((Note.mk 440).half_step (-12)).frequency = 220 := by
  refine ⟨by simp [Note.half_step, n_tets], ?_, ?_, ?_⟩
  · show (440 : ℝ) * (2 : ℝ) ^ (((12 : ℤ) : ℝ) / n_tets) = 880
    have he : ((12 : ℤ) : ℝ) / n_tets = 1 := by norm_num [n_tets]
    rw [he, Real.rpow_one]
    norm_num
  · show (440 : ℝ) * (2 : ℝ) ^ (((0 : ℤ) : ℝ) / n_tets) = 440
    have he : ((0 : ℤ) : ℝ) / n_tets = 0 := by norm_num [n_tets]
    rw [he, Real.rpow_zero]
    norm_num
  · show (440 : ℝ) * (2 : ℝ) ^ (((-12 : ℤ) : ℝ) / n_tets) = 220
    have he : ((-12 : ℤ) : ℝ) / n_tets = -1 := by norm_num [n_tets]
    rw [he, Real.rpow_neg (by norm_num), Real.rpow_one]
    norm_num

/-- C6: calling `plot` with an explicit range whose start is not below its
end fails with the assertion error, before any samples are produced. -/
theorem plot_invalid_range (n : Note) (r : ℝ × ℝ) (n_points : ℕ)
    (h : r.2 ≤ r.1) :
    n.plot (some r) n_points = Except.error "Invalid space interval!" := by
  unfold Note.plot
  exact if_neg (not_lt.mpr h)

/-- Witness for C6: `plot(x_range=(1, 0))` fails on `Note(440)`. -/
theorem plot_invalid_range_witness :
    ((1 : ℝ), (0 : ℝ)).2 ≤ ((1 : ℝ), (0 : ℝ)).1 ∧
    Note.plot ⟨440⟩ (some (1, 0)) 100 = Except.error "Invalid space interval!" :=
  ⟨by norm_num, plot_invalid_range ⟨440⟩ (1, 0) 100 (by norm_num)⟩

/-- C7: `plot` without an explicit range samples `n_points` points of
`linspace 0 wavelength n_points` and hands exactly those `(x, y)` pairs to
the plotting collaborator; the samples include both endpoints: the first is
`0` and the last is `wavelength`. -/
theorem plot_default_samples (n : Note) (k : ℕ) (hk : 2 ≤ k) :
    n.plot none k =
      Except.ok ((linspace 0 n.wavelength k).map (fun x => (x, n.call x))) ∧
    (linspace 0 n.wavelength k).length = k ∧
    (linspace 0 n.wavelength k)[0]? = some 0 ∧
    (linspace 0 n.wavelength k)[k - 1]? = some n.wavelength := by
  refine ⟨rfl, ?_, ?_, ?_⟩
  · unfold linspace
    rw [List.length_map, List.length_range]
  · unfold linspace
    rw [List.getElem?_eq_getElem
          (by rw [List.length_map, List.length_range]; omega),
        List.getElem_map, List.getElem_range]
    norm_num
  · unfold linspace
    rw [List.getElem?_eq_getElem
          (by rw [List.length_map, List.length_range]; omega),
        List.getElem_map, List.getElem_range]
    have hne : (k : ℝ) - 1 ≠ 0 := by
      have h2 : (2 : ℝ) ≤ (k : ℝ) := by exact_mod_cast hk
      linarith
    have hcast : ((k - 1 : ℕ) : ℝ) = (k : ℝ) - 1 := by
      have h1 := Nat.cast_sub (R := ℝ) (by omega : 1 ≤ k)
      simpa using h1
    rw [hcast, mul_div_assoc, div_self hne]
    norm_num

/-- Witness for C7 at `Note(440)` with two sample points. -/
theorem plot_default_samples_witness :
    2 ≤ 2 ∧
    (Note.plot ⟨440⟩ none 2 =
       Except.ok ((linspace 0 (Note.wavelength ⟨440⟩) 2).map
         (fun x => (x, Note.call ⟨440⟩ x))) ∧
     (linspace 0 (Note.wavelength ⟨440⟩) 2).length = 2 ∧
     (linspace 0 (Note.wavelength ⟨440⟩) 2)[0]? = some 0 ∧
     (linspace 0 (Note.wavelength ⟨440⟩) 2)[2 - 1]? =
       some (Note.wavelength ⟨440⟩)) :=
  ⟨by norm_num, plot_default_samples ⟨440⟩ 2 (by norm_num)⟩

/-- C10: a note whose frequency is a whole number `m` has
`sin(2π·m) = 0` as its waveform value for every `t`, so every `y` value in
the sample list produced by `plot` (for any range argument) is `0`: the
plotted waveform is identically flat. -/
theorem whole_frequency_flat (n : Note) (m : ℤ) (hm : n.frequency = m) :
    (∀ t : ℝ, n.call t = 0) ∧
    ∀ (xr : Option (ℝ × ℝ)) (np : ℕ) (l : List (ℝ × ℝ)),
      n.plot xr np = Except.ok l → ∀ p ∈ l, p.2 = 0 := by
  have hcall : ∀ t : ℝ, n.call t = 0 := by
    intro t
    unfold Note.call
    rw [hm]
    have h2 : 2 * π * (m : ℝ) = ((2 * m : ℤ) : ℝ) * π := by push_cast; ring
    rw [h2, Real.sin_int_mul_pi]
  refine ⟨hcall, ?_⟩
  intro xr np l hl p hp
  have hmem : ∀ xs : List ℝ, p ∈ xs.map (fun x => (x, n.call x)) → p.2 = 0 := by
    intro xs hp2
    obtain ⟨x, hx, rfl⟩ := List.mem_map.mp hp2
    exact hcall x
  cases xr with
  | none =>
    unfold Note.plot at hl
    rw [Except.ok.injEq] at hl
    exact hmem _ (hl ▸ hp)
  | some r =>
    have heq : n.plot (some r) np =
        if r.1 < r.2 then
          Except.ok ((linspace r.1 r.2 np).map (fun x => (x, n.call x)))
        else Except.error "Invalid space interval!" := rfl
    rw [heq] at hl
    by_cases hr : r.1 < r.2
    · rw [if_pos hr, Except.ok.injEq] at hl
      exact hmem _ (hl ▸ hp)
    · rw [if_neg hr] at hl
      exact Except.noConfusion hl

/-- Witness for C10 at `Note(440)` (frequency `440` is the integer `440`). -/
theorem whole_frequency_flat_witness :
    (Note.mk 440).frequency = ((440 : ℤ) : ℝ) ∧
    ((∀ t : ℝ, Note.call ⟨440⟩ t = 0) ∧
     ∀ (xr : Option (ℝ × ℝ)) (np : ℕ) (l : List (ℝ × ℝ)),
       Note.plot ⟨440⟩ xr np = Except.ok l → ∀ p ∈ l, p.2 = 0) :=
  ⟨by norm_num, whole_frequency_flat ⟨440⟩ 440 (by norm_num)⟩
